import Mathlib

/-!
GitHub client of rancher-auth-service: a shallow embedding.

Source: `providers/github/github_client.go`.

The client talks to the outside world through library calls (`net/http`,
`net/url`, `encoding/json`, `fmt`, `linkheader`).  Those are not code of the
repository, so they are parameters of the embedding: the library functions
are the fields of `Lib`, and the HTTP client is a field of `GClient`.
Requests handed to the HTTP client are recorded in a log (explicit state
passing), in the order in which `httpClient.Do` receives them.  A call that
dereferences a nil pointer ends as `Outcome.panicked`; the unbounded loop of
`paginateGithub` takes a bound on its iterations.

Go strings are modelled by `String`, Go `int` by `Int`, a Go `error` by
`GoError` (its message).  Calls to the logger and `defer resp.Body.Close()`
have no effect on results and are left out.
-/

namespace Github

/-! ## Constants (lines 18-23) -/

def gheAPI : String := "/api/v3"
def githubAPI : String := "https://api.github.com"
def githubDefaultHostName : String := "https://github.com"

/-! ## Data model -/

/-- A Go `error` value, identified by its message. -/
structure GoError where
  msg : String
deriving DecidableEq

/-- Modelled from the spec: `model.GithubConfig` (declared in the `model`
package, outside the file): OAuth client id and secret, the optional custom
hostname and the scheme used with it. -/
structure GithubConfig where
  ClientID : String
  ClientSecret : String
  Hostname : String
  Scheme : String
deriving DecidableEq

/-! ## getURL (lines 401-441) -/

def getURL (config : GithubConfig) (endpoint : String) : String :=
  let hostName :=
    if config.Hostname ≠ "" then config.Scheme ++ config.Hostname else githubDefaultHostName
  let apiEndpoint :=
    if config.Hostname ≠ "" then config.Scheme ++ config.Hostname ++ gheAPI else githubAPI
  if endpoint = "API" then apiEndpoint
  else if endpoint = "TOKEN" then hostName ++ "/login/oauth/access_token"
  else if endpoint = "USERS" then apiEndpoint ++ "/users/"
  else if endpoint = "ORGS" then apiEndpoint ++ "/orgs/"
  else if endpoint = "USER_INFO" then apiEndpoint ++ "/user"
  else if endpoint = "ORG_INFO" then apiEndpoint ++ "/user/orgs?per_page=1"
  else if endpoint = "USER_PICTURE" then
    "https://avatars.githubusercontent.com/u/" ++ endpoint ++ "?v=3&s=72"
  else if endpoint = "USER_SEARCH" then apiEndpoint ++ "/search/users?q="
  else if endpoint = "TEAM" then apiEndpoint ++ "/teams/"
  else if endpoint = "TEAMS" then apiEndpoint ++ "/user/teams?per_page=100"
  else if endpoint = "TEAM_PROFILE" then hostName ++ "/orgs/%s/teams/%s"
  else apiEndpoint

/-! ## Records, requests and responses -/

/-- Modelled from the spec: the `Account` record (declared in another file of
the package): provider-assigned id, login, display name, avatar reference,
profile link and kind discriminator. -/
structure Account where
  ID : Int
  Login : String
  Name : String
  AvatarURL : String
  HTMLURL : String
  Kind : String
deriving DecidableEq

/-- The Go zero value `Account{}`. -/
def Account.zero : Account := ⟨0, "", "", "", "", ""⟩

/-- Modelled from the spec: the `Team` record (declared in another file of the
package): team id, name, slug and the login of the owning organization. -/
structure Team where
  ID : Int
  Name : String
  Slug : String
  Organization : String
deriving DecidableEq

/-- An `http.Request` as the client builds it: method, URL text, the headers
in the order of `Header.Add`, the body text and the posted form. -/
structure Request where
  Method : String
  URL : String
  Header : List (String × String)
  Body : String
  PostForm : List (String × String)
deriving DecidableEq

/-- The `Body` reader of a response: the bytes it delivers before it ends, and
the error it ends with, if any (`none` is a clean end of file). -/
structure Body where
  data : String
  readErr : Option GoError
deriving DecidableEq

/-- An `http.Response`: status code, `Header.Get` as a function of the key, and
the body reader. -/
structure Response where
  StatusCode : Int
  Header : String → String
  Body : Body

/-- What `httpClient.Do` returns: a response with a nil error, or a non-nil
error (with whatever response pointer came with it). -/
inductive DoResult where
  | response (resp : Response)
  | failure (resp : Option Response) (err : GoError)

/-- A parsed `url.URL`, kept as the text its `String()` method renders. -/
structure URL where
  text : String
deriving DecidableEq

/-- One entry of a parsed link header (`linkheader.Link`). -/
structure Link where
  URL : String
  Rel : String
deriving DecidableEq

/-- A Go value decoded from JSON into `interface{}`: `nil`, `bool`, `float64`
(kept as its literal, the client never computes with it), `string`,
`[]interface{}` or `map[string]interface{}`. -/
inductive JValue where
  | null
  | bool (b : Bool)
  | number (lit : String)
  | string (s : String)
  | array (xs : List JValue)
  | object (kvs : List (String × JValue))

/-- A `map[string]interface{}` as an association list. -/
abbrev JMap := List (String × JValue)

/-- The Go map index `m[k]`: the stored value, `nil` when the key is absent. -/
def JMap.index (m : JMap) (k : String) : JValue :=
  match m.lookup k with
  | some v => v
  | none => JValue.null

/-- The Go test `v != nil` on an `interface{}`. -/
def JValue.notNil : JValue → Bool
  | JValue.null => false
  | _ => true

/-- The requests handed to `httpClient.Do` so far, oldest first. -/
abbrev Log := List Request

/-- The library calls the client depends on. -/
structure Lib where
  /-- Library `url.Parse`: the error, or the parsed URL. -/
  urlParse : String → Except GoError URL
  /-- Library `url.Values.Encode` on a form given as the list of added pairs. -/
  formEncode : List (String × String) → String
  /-- Library `linkheader.Parse`. -/
  parseLinks : String → List Link
  /-- Library `json.Unmarshal` into a `map[string]interface{}`. -/
  unmarshalMap : String → Except GoError JMap
  /-- Library `json.Unmarshal` into an `Account`. -/
  unmarshalAccount : String → Except GoError Account
  /-- Library `json.Unmarshal` into a `[]Account`. -/
  unmarshalAccounts : String → Except GoError (List Account)
  /-- Library `json.Unmarshal` into a `[]Team`. -/
  unmarshalTeams : String → Except GoError (List Team)
  /-- The `%v` verb of `fmt` on a decoded JSON value. -/
  fmtV : JValue → String
  /-- Method `Team.toGithubAccount(url, &acct)` (another file of the package): the
  account it leaves in `acct`. -/
  toGithubAccount : Team → String → Account → Account

/-- The client (lines 25-29): `httpClient` is its `Do` method, which may answer
according to the requests it has received before. -/
structure GClient where
  httpClient : Log → Request → DoResult
  config : GithubConfig

/-- How a call ends: it returns a value, or it panics on a nil pointer.  Both
carry the request log at that point. -/
inductive Outcome (α : Type) where
  | returned (val : α) (log : Log)
  | panicked (log : Log)

/-- Library `http.NewRequest` for the methods the client uses: it fails exactly when
`url.Parse` rejects the URL, and then returns a nil request. -/
def newRequest (lib : Lib) (method url body : String) : Except GoError Request :=
  match lib.urlParse url with
  | .error e => .error e
  | .ok _ => .ok ⟨method, url, [], body, []⟩

/-- Method `req.Header.Add(key, value)`. -/
def Request.addHeader (req : Request) (key value : String) : Request :=
  { req with Header := req.Header ++ [(key, value)] }

/-- Library `ioutil.ReadAll`: the bytes read and the error, if any. -/
def readAll (b : Body) : String × Option GoError := (b.data, b.readErr)

/-- The error both request helpers build for a status other than 200 and 201
(`io.Copy` drains the body and its own error is dropped). -/
def statusError (resp : Response) : GoError :=
  ⟨"Request failed, got status code: " ++ toString resp.StatusCode ++ ". Response: "
    ++ resp.Body.data⟩

def userAgent : String :=
  "Mozilla/5.0 (Macintosh; Intel Mac OS X 10_10_5) AppleWebKit/537.36 (KHTML, like Gecko) Chrome/51.0.2704.103 Safari/537.36)"

/-! ## postToGithub (lines 349-373) and getFromGithub (lines 375-399) -/

def postToGithub (lib : Lib) (g : GClient) (url : String) (form : List (String × String))
    (log : Log) : Outcome (Option Response × Option GoError) :=
  match newRequest lib "POST" url (lib.formEncode form) with
  | .error _ => .panicked log
  | .ok req0 =>
    let req := ({ req0 with PostForm := form }.addHeader "Content-Type"
      "application/x-www-form-urlencoded").addHeader "Accept" "application/json"
    match g.httpClient log req with
    | .failure resp err => .returned (resp, some err) (log ++ [req])
    | .response resp =>
      if resp.StatusCode = 200 then .returned (some resp, none) (log ++ [req])
      else if resp.StatusCode = 201 then .returned (some resp, none) (log ++ [req])
      else .returned (some resp, some (statusError resp)) (log ++ [req])

def getFromGithub (lib : Lib) (g : GClient) (githubAccessToken url : String)
    (log : Log) : Outcome (Option Response × Option GoError) :=
  match newRequest lib "GET" url "" with
  | .error _ => .panicked log
  | .ok req0 =>
    let req := ((req0.addHeader "Authorization" ("token " ++ githubAccessToken)).addHeader
      "Accept" "application/json").addHeader "user-agent" userAgent
    match g.httpClient log req with
    | .failure resp err => .returned (resp, some err) (log ++ [req])
    | .response resp =>
      if resp.StatusCode = 200 then .returned (some resp, none) (log ++ [req])
      else if resp.StatusCode = 201 then .returned (some resp, none) (log ++ [req])
      else .returned (some resp, some (statusError resp)) (log ++ [req])

/-- The request `getFromGithub` hands to the HTTP client for a token and URL. -/
def authorizedGet (githubAccessToken url : String) : Request :=
  ⟨"GET", url,
    [("Authorization", "token " ++ githubAccessToken), ("Accept", "application/json"),
      ("user-agent", userAgent)], "", []⟩

/-! ## URLEncoded (lines 339-347) -/

def URLEncoded (lib : Lib) (str : String) : String :=
  match lib.urlParse str with
  | .error _ => str
  | .ok u => u.text

/-! ## getAccessToken (lines 31-70) -/

def getAccessToken (lib : Lib) (g : GClient) (code : String) (log : Log) :
    Outcome (String × Option GoError) :=
  let form := [("client_id", g.config.ClientID), ("client_secret", g.config.ClientSecret),
    ("code", code)]
  let url := getURL g.config "TOKEN"
  match postToGithub lib g url form log with
  | .panicked l => .panicked l
  | .returned (_, some err) l => .returned ("", some err) l
  | .returned (none, none) l => .panicked l
  | .returned (some resp, none) l =>
    match readAll resp.Body with
    | (_, some err) => .returned ("", some err) l
    | (b, none) =>
      match lib.unmarshalMap b with
      | .error err => .returned ("", some err) l
      | .ok respMap =>
        if (respMap.index "error").notNil then
          let desc := respMap.index "error_description"
          .returned ("", some ⟨"Received Error from github " ++ lib.fmtV (respMap.index "error")
            ++ ", description from github " ++ lib.fmtV desc⟩) l
        else
          match respMap.index "access_token" with
          | JValue.string acessToken => .returned (acessToken, none) l
          | _ => .returned ("", some ⟨"Received Error reading accessToken from response "
              ++ lib.fmtV (JValue.object respMap)⟩) l

/-! ## paginateGithub (lines 196-215) and nextGithubPage (lines 217-230) -/

def nextGithubPage (lib : Lib) (response : Response) : String :=
  let header := response.Header "link"
  if header ≠ "" then
    match (lib.parseLinks header).find? (fun link => link.Rel = "next") with
    | some link => link.URL
    | none => ""
  else ""

/-- The `for nextURL != ""` loop of `paginateGithub`; `fuel` bounds the number
of iterations and `none` means the bound was reached. -/
def paginateLoop (lib : Lib) (g : GClient) (githubAccessToken : String) :
    Nat → String → List Response → Log → Option (Outcome (List Response × Option GoError))
  | fuel, nextURL, responses, log =>
    if nextURL = "" then some (.returned (responses, none) log)
    else
      match fuel with
      | 0 => none
      | fuel + 1 =>
        match getFromGithub lib g githubAccessToken nextURL log with
        | .panicked l => some (.panicked l)
        | .returned (_, some err) l => some (.returned (responses, some err) l)
        | .returned (none, none) l => some (.panicked l)
        | .returned (some response, none) l =>
          paginateLoop lib g githubAccessToken fuel (nextGithubPage lib response)
            (responses ++ [response]) l

def paginateGithub (lib : Lib) (g : GClient) (githubAccessToken url : String) (log : Log)
    (fuel : Nat) : Option (Outcome (List Response × Option GoError)) :=
  match getFromGithub lib g githubAccessToken url log with
  | .panicked l => some (.panicked l)
  | .returned (_, some err) l => some (.returned ([], some err) l)
  | .returned (none, none) l => some (.panicked l)
  | .returned (some response, none) l =>
    paginateLoop lib g githubAccessToken fuel (nextGithubPage lib response) [response] l

/-! ## getGithubOrgs (lines 97-124) -/

/-- The `for _, response := range responses` loop of `getGithubOrgs`; `orgs`
is the slice built so far. -/
def orgsLoop (lib : Lib) : List Response → List Account → List Account × Option GoError
  | [], orgs => (orgs, none)
  | response :: rest, orgs =>
    match readAll response.Body with
    | (_, some err) => (orgs, some err)
    | (b, none) =>
      match lib.unmarshalAccounts b with
      | .error err => (orgs, some err)
      | .ok orgObjs => orgsLoop lib rest (orgs ++ orgObjs)

def getGithubOrgs (lib : Lib) (g : GClient) (githubAccessToken : String) (log : Log)
    (fuel : Nat) : Option (Outcome (List Account × Option GoError)) :=
  let url := getURL g.config "ORG_INFO"
  match paginateGithub lib g githubAccessToken url log fuel with
  | none => none
  | some (.panicked l) => some (.panicked l)
  | some (.returned (_, some err) l) => some (.returned ([], some err) l)
  | some (.returned (responses, none) l) => some (.returned (orgsLoop lib responses []) l)

/-! ## getGithubTeams (lines 126-148) and getTeamInfo (lines 150-170) -/

def getTeamInfo (lib : Lib) (g : GClient) (response : Response) :
    List Account × Option GoError :=
  match readAll response.Body with
  | (_, some err) => ([], some err)
  | (b, none) =>
    match lib.unmarshalTeams b with
    | .error err => ([], some err)
    | .ok teamObjs =>
      let url := getURL g.config "TEAM_PROFILE"
      (teamObjs.map (fun team => lib.toGithubAccount team url Account.zero), none)

/-- The `for _, response := range responses` loop of `getGithubTeams`; `teams`
is the slice built so far. -/
def teamsLoop (lib : Lib) (g : GClient) :
    List Response → List Account → List Account × Option GoError
  | [], teams => (teams, none)
  | response :: rest, teams =>
    match getTeamInfo lib g response with
    | (_, some err) => (teams, some err)
    | (teamObjs, none) => teamsLoop lib g rest (teams ++ teamObjs)

def getGithubTeams (lib : Lib) (g : GClient) (githubAccessToken : String) (log : Log)
    (fuel : Nat) : Option (Outcome (List Account × Option GoError)) :=
  let url := getURL g.config "TEAMS"
  match paginateGithub lib g githubAccessToken url log fuel with
  | none => none
  | some (.panicked l) => some (.panicked l)
  | some (.returned (_, some err) l) => some (.returned ([], some err) l)
  | some (.returned (responses, none) l) => some (.returned (teamsLoop lib g responses []) l)

/-! ## getGithubOrgByName (lines 264-289) and getGithubUserByName (lines 232-262) -/

def getGithubOrgByName (lib : Lib) (g : GClient) (org githubAccessToken : String)
    (log : Log) : Outcome (Account × Option GoError) :=
  let org := URLEncoded lib org
  let url := getURL g.config "ORGS" ++ org
  match getFromGithub lib g githubAccessToken url log with
  | .panicked l => .panicked l
  | .returned (_, some err) l => .returned (Account.zero, some err) l
  | .returned (none, none) l => .panicked l
  | .returned (some resp, none) l =>
    match readAll resp.Body with
    | (_, some err) => .returned (Account.zero, some err) l
    | (b, none) =>
      match lib.unmarshalAccount b with
      | .error err => .returned (Account.zero, some err) l
      | .ok githubAcct => .returned (githubAcct, none) l

def getGithubUserByName (lib : Lib) (g : GClient) (username githubAccessToken : String)
    (log : Log) : Outcome (Account × Option GoError) :=
  match getGithubOrgByName lib g username githubAccessToken log with
  | .panicked l => .panicked l
  | .returned (_, none) l =>
    .returned (Account.zero,
      some ⟨"There is a org by this name, not looking fo the user entity by name "
        ++ username⟩) l
  | .returned (_, some _) l =>
    let username := URLEncoded lib username
    let url := getURL g.config "USERS" ++ username
    match getFromGithub lib g githubAccessToken url l with
    | .panicked l => .panicked l
    | .returned (_, some err) l => .returned (Account.zero, some err) l
    | .returned (none, none) l => .panicked l
    | .returned (some resp, none) l =>
      match readAll resp.Body with
      | (_, some err) => .returned (Account.zero, some err) l
      | (b, none) =>
        match lib.unmarshalAccount b with
        | .error err => .returned (Account.zero, some err) l
        | .ok githubAcct => .returned (githubAcct, none) l

/-! ## Specification-side definitions -/

/-- The API base as the specification words it: `scheme + hostname + "/api/v3"`
when a hostname is set, the fixed public API origin otherwise. -/
def specApiBase (config : GithubConfig) : String :=
  if config.Hostname = "" then "https://api.github.com"
  else config.Scheme ++ config.Hostname ++ "/api/v3"

/-- The non-API (site) base as the specification words it: `scheme + hostname`
when a hostname is set, the fixed public site origin otherwise. -/
def specSiteBase (config : GithubConfig) : String :=
  if config.Hostname = "" then "https://github.com"
  else config.Scheme ++ config.Hostname

/-- String `s` begins with `p`. -/
def BeginsWith (p s : String) : Prop := ∃ rest : String, s = p ++ rest

/-- The request `getAccessToken` posts for an authorization code. -/
def tokenRequest (lib : Lib) (g : GClient) (code : String) : Request :=
  ⟨"POST", getURL g.config "TOKEN",
    [("Content-Type", "application/x-www-form-urlencoded"), ("Accept", "application/json")],
    lib.formEncode [("client_id", g.config.ClientID), ("client_secret", g.config.ClientSecret),
      ("code", code)],
    [("client_id", g.config.ClientID), ("client_secret", g.config.ClientSecret), ("code", code)]⟩

/-- The response carries a link header with a `rel="next"` entry, and its
`next` entries point to `next`. -/
def HasNextLink (lib : Lib) (resp : Response) (next : String) : Prop :=
  resp.Header "link" ≠ "" ∧
    (∃ l ∈ lib.parseLinks (resp.Header "link"), l.Rel = "next" ∧ l.URL = next) ∧
    (∀ l ∈ lib.parseLinks (resp.Header "link"), l.Rel = "next" → l.URL = next)

/-- The response has no `rel="next"` entry: no link header, or none of its
entries has relation `next`. -/
def NoNextLink (lib : Lib) (resp : Response) : Prop :=
  resp.Header "link" = "" ∨ ∀ l ∈ lib.parseLinks (resp.Header "link"), l.Rel ≠ "next"

/-- A chain of pages `(url, response)` served from the log state `log` on:
each URL is one `http.NewRequest` accepts, its fetch is answered by the paired
response with status 200 or 201, every page but the last links to the
(non-empty) URL of the following page, and the last page has no next link. -/
def PageChain (lib : Lib) (g : GClient) (token : String) :
    Log → List (String × Response) → Prop
  | _, [] => True
  | log, (url, resp) :: rest =>
    (∃ u, lib.urlParse url = .ok u) ∧
    g.httpClient log (authorizedGet token url) = .response resp ∧
    (resp.StatusCode = 200 ∨ resp.StatusCode = 201) ∧
    (match rest with
      | [] => NoNextLink lib resp
      | (next, _) :: _ => next ≠ "" ∧ HasNextLink lib resp next) ∧
    PageChain lib g token (log ++ [authorizedGet token url]) rest

/-- The URL the loop of `paginateGithub` holds when `pages` remain. -/
def nextOf : List (String × Response) → String
  | [] => ""
  | (url, _) :: _ => url

/-- Every page of `pre` reads without error and its body decodes to the paired
list of accounts. -/
def OrgPagesDecode (lib : Lib) (pre : List (Response × List Account)) : Prop :=
  ∀ p ∈ pre, p.1.Body.readErr = none ∧ lib.unmarshalAccounts p.1.Body.data = .ok p.2

/-- Reading the page, or decoding its body as a list of accounts, fails with
the error `e`. -/
def OrgPageFails (lib : Lib) (bad : Response) (e : GoError) : Prop :=
  bad.Body.readErr = some e ∨
    (bad.Body.readErr = none ∧ lib.unmarshalAccounts bad.Body.data = .error e)

/-- Every page of `pre` reads without error and its body decodes to the paired
list of teams. -/
def TeamPagesDecode (lib : Lib) (pre : List (Response × List Team)) : Prop :=
  ∀ p ∈ pre, p.1.Body.readErr = none ∧ lib.unmarshalTeams p.1.Body.data = .ok p.2

/-- Reading the page, or decoding its body as a list of teams, fails with the
error `e`. -/
def TeamPageFails (lib : Lib) (bad : Response) (e : GoError) : Prop :=
  bad.Body.readErr = some e ∨
    (bad.Body.readErr = none ∧ lib.unmarshalTeams bad.Body.data = .error e)

/-- The accounts `getTeamInfo` makes of a decoded list of teams. -/
def teamAccounts (lib : Lib) (g : GClient) (teams : List Team) : List Account :=
  teams.map (fun team => lib.toGithubAccount team (getURL g.config "TEAM_PROFILE") Account.zero)

/-- The fetch of `url` from the log state `log` returns the error `e`: the
HTTP client fails with `e`, or it answers with a status other than 200 and 201
and `e` is the error built from that response. -/
def FetchFails (lib : Lib) (g : GClient) (token : String) (log : Log) (url : String)
    (e : GoError) : Prop :=
  (∃ u, lib.urlParse url = .ok u) ∧
    ((∃ r, g.httpClient log (authorizedGet token url) = .failure r e) ∨
      (∃ resp, g.httpClient log (authorizedGet token url) = .response resp ∧
        ¬ (resp.StatusCode = 200 ∨ resp.StatusCode = 201) ∧ e = statusError resp))

/-- The URL fetched first when the pages `pre` are served and `bad` follows
them. -/
def startOf (pre : List (String × Response)) (bad : String) : String :=
  match pre with
  | [] => bad
  | (url, _) :: _ => url

/-- A chain of pages that breaks: the pages of `pre` are served from the log
state `log` on, each with status 200 or 201 and a next link to the (non-empty)
URL that follows, and the fetch of `bad`, the URL the last of them links to
(the start URL when `pre` is empty), returns the error `e`. -/
def FailingChain (lib : Lib) (g : GClient) (token : String) :
    Log → List (String × Response) → String → GoError → Prop
  | log, [], bad, e => FetchFails lib g token log bad e
  | log, (url, resp) :: rest, bad, e =>
    (∃ u, lib.urlParse url = .ok u) ∧
    g.httpClient log (authorizedGet token url) = .response resp ∧
    (resp.StatusCode = 200 ∨ resp.StatusCode = 201) ∧
    (startOf rest bad ≠ "" ∧ HasNextLink lib resp (startOf rest bad)) ∧
    FailingChain lib g token (log ++ [authorizedGet token url]) rest bad e

/-! ## A sample client and sample libraries

Stand-ins that agree with the real libraries and with a GitHub server on the
inputs used in the closed statements below. -/

/-- On texts made of letters, digits and `: / ? = & . _ -`, `url.Parse`
succeeds and `String()` renders the text unchanged. -/
def sampleURLParse (s : String) : Except GoError URL := .ok ⟨s⟩

/-- Library `url.Values.Encode` for keys already in sorted order and values
that need no escaping. -/
def sampleFormEncode : List (String × String) → String
  | [] => ""
  | [(k, v)] => k ++ "=" ++ v
  | (k, v) :: rest => k ++ "=" ++ v ++ "&" ++ sampleFormEncode rest

def orgsPage1URL : String := "https://api.github.com/user/orgs?per_page=1"
def orgsPage2URL : String := "https://api.github.com/user/orgs?per_page=1&page=2"
def teamsPage1URL : String := "https://api.github.com/user/teams?per_page=100"
def teamsPage2URL : String := "https://api.github.com/user/teams?per_page=100&page=2"

def orgsLinkHeader : String :=
  "<https://api.github.com/user/orgs?per_page=1&page=2>; rel=\"next\", <https://api.github.com/user/orgs?per_page=1&page=2>; rel=\"last\""

def teamsLinkHeader : String :=
  "<https://api.github.com/user/teams?per_page=100&page=2>; rel=\"next\""

def sampleParseLinks (header : String) : List Link :=
  if header = orgsLinkHeader then [⟨orgsPage2URL, "next"⟩, ⟨orgsPage2URL, "last"⟩]
  else if header = teamsLinkHeader then [⟨teamsPage2URL, "next"⟩]
  else []

def acmeBody : String := "\x7b\"id\":1,\"login\":\"acme\"\x7d"
def aliceBody : String := "\x7b\"id\":7,\"login\":\"alice\"\x7d"
def orgsBody : String := "[\x7b\"id\":1,\"login\":\"acme\"\x7d]"
def teamsBody : String :=
  "[\x7b\"id\":7,\"name\":\"core\",\"slug\":\"core\",\"organization\":\x7b\"login\":\"acme\"\x7d\x7d]"
def notFoundBody : String := "\x7b\"message\":\"Not Found\"\x7d"
def tokenBody : String := "\x7b\"access_token\":\"tok\"\x7d"
def rejectedBody : String :=
  "\x7b\"error\":\"bad_verification_code\",\"error_description\":\"expired\"\x7d"
def nullErrorBody : String := "\x7b\"error\":null,\"access_token\":\"tok\"\x7d"

def acme : Account := ⟨1, "acme", "", "", "", ""⟩
def alice : Account := ⟨7, "alice", "", "", "", ""⟩
def coreTeam : Team := ⟨7, "core", "core", "acme"⟩

def decodeError : GoError := ⟨"unexpected end of JSON input"⟩

def sampleUnmarshalMap (b : String) : Except GoError JMap :=
  if b = tokenBody then .ok [("access_token", JValue.string "tok")]
  else if b = rejectedBody then
    .ok [("error", JValue.string "bad_verification_code"),
      ("error_description", JValue.string "expired")]
  else if b = nullErrorBody then .ok [("error", JValue.null), ("access_token", JValue.string "tok")]
  else .error decodeError

def sampleUnmarshalAccount (b : String) : Except GoError Account :=
  if b = acmeBody then .ok acme
  else if b = aliceBody then .ok alice
  else .error decodeError

def sampleUnmarshalAccounts (b : String) : Except GoError (List Account) :=
  if b = orgsBody then .ok [acme] else .error decodeError

def sampleUnmarshalTeams (b : String) : Except GoError (List Team) :=
  if b = teamsBody then .ok [coreTeam] else .error decodeError

/-- The `%v` verb on strings and on `nil`; other values are not printed in
this file. -/
def sampleFmtV : JValue → String
  | JValue.string s => s
  | JValue.null => "<nil>"
  | _ => ""

/-- A stand-in for `toGithubAccount` that copies id and name and marks the
account as a team. -/
def sampleToGithubAccount (team : Team) (_url : String) (acct : Account) : Account :=
  { acct with ID := team.ID, Name := team.Name, Login := team.Slug, Kind := "team" }

def sampleLib : Lib :=
  ⟨sampleURLParse, sampleFormEncode, sampleParseLinks, sampleUnmarshalMap,
    sampleUnmarshalAccount, sampleUnmarshalAccounts, sampleUnmarshalTeams, sampleFmtV,
    sampleToGithubAccount⟩

def noHeader : String → String := fun _ => ""

def orgsPage1 : Response :=
  ⟨200, fun k => if k = "link" then orgsLinkHeader else "", ⟨orgsBody, none⟩⟩
def teamsPage1 : Response :=
  ⟨200, fun k => if k = "link" then teamsLinkHeader else "", ⟨teamsBody, none⟩⟩
def brokenPage : Response := ⟨200, noHeader, ⟨"", none⟩⟩
def notFound : Response := ⟨404, noHeader, ⟨notFoundBody, none⟩⟩

/-- A server on the public origin: two pages of organizations and of teams
(the second page of each has an empty body), the organization `acme`, the user
`alice`, and a token endpoint that knows three authorization codes. -/
def sampleDo (_log : Log) (req : Request) : DoResult :=
  if req.Method = "POST" then
    if req.Body = "client_id=id&client_secret=secret&code=good" then
      .response ⟨200, noHeader, ⟨tokenBody, none⟩⟩
    else if req.Body = "client_id=id&client_secret=secret&code=expired" then
      .response ⟨200, noHeader, ⟨rejectedBody, none⟩⟩
    else if req.Body = "client_id=id&client_secret=secret&code=odd" then
      .response ⟨200, noHeader, ⟨nullErrorBody, none⟩⟩
    else .response notFound
  else if req.URL = orgsPage1URL then .response orgsPage1
  else if req.URL = orgsPage2URL then .response brokenPage
  else if req.URL = teamsPage1URL then .response teamsPage1
  else if req.URL = teamsPage2URL then .response brokenPage
  else if req.URL = "https://api.github.com/orgs/acme" then
    .response ⟨200, noHeader, ⟨acmeBody, none⟩⟩
  else if req.URL = "https://api.github.com/users/alice" then
    .response ⟨200, noHeader, ⟨aliceBody, none⟩⟩
  else .response notFound

def sampleConfig : GithubConfig := ⟨"id", "secret", "", "https://"⟩

def sampleClient : GClient := ⟨sampleDo, sampleConfig⟩

/-- A client whose every request fails in the network. -/
def downClient : GClient :=
  ⟨fun _ _ => .failure none ⟨"dial tcp: connection refused"⟩, sampleConfig⟩

def connectionRefused : GoError := ⟨"dial tcp: connection refused"⟩

/-- A client that serves the first page of organizations and of teams and
then loses the network. -/
def flakyClient : GClient :=
  ⟨fun _ req =>
      if req.URL = orgsPage1URL then .response orgsPage1
      else if req.URL = teamsPage1URL then .response teamsPage1
      else .failure none connectionRefused,
    sampleConfig⟩

/-! ## Theorems -/

/-! ### Shared lemmas -/

theorem getFromGithub_request (lib : Lib) (g : GClient) (token url : String) (log : Log)
    (u : URL) (hurl : lib.urlParse url = .ok u) :
    getFromGithub lib g token url log =
      match g.httpClient log (authorizedGet token url) with
      | .failure resp err => .returned (resp, some err) (log ++ [authorizedGet token url])
      | .response resp =>
        if resp.StatusCode = 200 ∨ resp.StatusCode = 201 then
          .returned (some resp, none) (log ++ [authorizedGet token url])
        else .returned (some resp, some (statusError resp)) (log ++ [authorizedGet token url]) := by
  simp only [getFromGithub, newRequest, hurl, Request.addHeader, authorizedGet, List.nil_append,
    List.cons_append]
  cases g.httpClient log ⟨"GET", url, [("Authorization", "token " ++ token),
      ("Accept", "application/json"), ("user-agent", userAgent)], "", []⟩ with
  | failure resp err => rfl
  | response resp =>
    by_cases h1 : resp.StatusCode = 200
    · simp [h1]
    · by_cases h2 : resp.StatusCode = 201
      · simp [h2]
      · simp [h1, h2]

theorem getFromGithub_success (lib : Lib) (g : GClient) (token url : String) (log : Log)
    (u : URL) (resp : Response) (hurl : lib.urlParse url = .ok u)
    (hdo : g.httpClient log (authorizedGet token url) = .response resp)
    (hst : resp.StatusCode = 200 ∨ resp.StatusCode = 201) :
    getFromGithub lib g token url log =
      .returned (some resp, none) (log ++ [authorizedGet token url]) := by
  rw [getFromGithub_request lib g token url log u hurl, hdo]
  simp [hst]

theorem nextGithubPage_of_hasNext (lib : Lib) (resp : Response) (next : String)
    (h : HasNextLink lib resp next) : nextGithubPage lib resp = next := by
  obtain ⟨hne, ⟨l, hl, hrel, _⟩, hall⟩ := h
  unfold nextGithubPage
  simp only [hne, ne_eq, not_false_eq_true, if_true]
  cases hf : (lib.parseLinks (resp.Header "link")).find? (fun link => link.Rel = "next") with
  | none =>
    have := List.find?_eq_none.mp hf l hl
    simp [hrel] at this
  | some l2 =>
    have hmem := List.mem_of_find?_eq_some hf
    have hp := List.find?_some hf
    simp only [decide_eq_true_eq] at hp
    exact hall l2 hmem hp

theorem nextGithubPage_of_noNext (lib : Lib) (resp : Response)
    (h : NoNextLink lib resp) : nextGithubPage lib resp = "" := by
  unfold nextGithubPage
  rcases h with h | h
  · simp [h]
  · by_cases hne : resp.Header "link" = ""
    · simp [hne]
    · simp only [hne, ne_eq, not_false_eq_true, if_true]
      cases hf : (lib.parseLinks (resp.Header "link")).find? (fun link => link.Rel = "next") with
      | none => rfl
      | some l2 =>
        have hmem := List.mem_of_find?_eq_some hf
        have hp := List.find?_some hf
        simp only [decide_eq_true_eq] at hp
        exact absurd hp (h l2 hmem)

theorem paginateLoop_chain (lib : Lib) (g : GClient) (token : String) :
    ∀ (pages : List (String × Response)) (acc : List Response) (log : Log) (fuel : Nat),
      PageChain lib g token log pages → pages.length ≤ fuel →
      (∀ p ∈ pages.head?, p.1 ≠ "") →
      paginateLoop lib g token fuel (nextOf pages) acc log =
        some (.returned (acc ++ pages.map (fun p => p.2), none)
          (log ++ pages.map (fun p => authorizedGet token p.1))) := by
  intro pages
  induction pages with
  | nil =>
    intro acc log fuel _ _ _
    unfold paginateLoop
    simp [nextOf]
  | cons p rest ih =>
    intro acc log fuel hchain hfuel hhead
    obtain ⟨url, resp⟩ := p
    obtain ⟨⟨u, hurl⟩, hdo, hst, hlink, hrest⟩ := hchain
    have hne : url ≠ "" := hhead (url, resp) (by simp)
    cases fuel with
    | zero => simp at hfuel
    | succ fuel =>
      have hfuel2 : rest.length ≤ fuel := by simpa using hfuel
      unfold paginateLoop
      simp only [nextOf, hne, if_false]
      rw [getFromGithub_success lib g token url log u resp hurl hdo hst]
      simp only
      have hnext : nextGithubPage lib resp = nextOf rest := by
        cases rest with
        | nil => exact nextGithubPage_of_noNext lib resp hlink
        | cons q rest2 => exact nextGithubPage_of_hasNext lib resp q.1 hlink.2
      have hhead2 : ∀ p ∈ rest.head?, p.1 ≠ "" := by
        cases rest with
        | nil => simp
        | cons q rest2 =>
          intro p hp
          simp only [List.head?_cons, Option.mem_def, Option.some.injEq] at hp
          subst hp
          exact hlink.1
      rw [hnext, ih (acc ++ [resp]) (log ++ [authorizedGet token url]) fuel hrest hfuel2 hhead2]
      simp


theorem getFromGithub_log (lib : Lib) (g : GClient) (token url : String) (log l : Log)
    (r : Option Response × Option GoError)
    (h : getFromGithub lib g token url log = .returned r l) :
    l = log ++ [authorizedGet token url] ∧ ∃ u, lib.urlParse url = .ok u := by
  cases hu : lib.urlParse url with
  | error e => simp [getFromGithub, newRequest, hu] at h
  | ok u =>
    rw [getFromGithub_request lib g token url log u hu] at h
    refine ⟨?_, u, rfl⟩
    cases hd : g.httpClient log (authorizedGet token url) with
    | failure resp err =>
      rw [hd] at h
      simp only [Outcome.returned.injEq] at h
      exact h.2.symm
    | response resp =>
      rw [hd] at h
      simp only at h
      split_ifs at h
      all_goals
        simp only [Outcome.returned.injEq] at h
        exact h.2.symm

theorem getGithubOrgByName_log (lib : Lib) (g : GClient) (name token : String) (log l : Log)
    (r : Account × Option GoError)
    (h : getGithubOrgByName lib g name token log = .returned r l) :
    l = log ++ [authorizedGet token (getURL g.config "ORGS" ++ URLEncoded lib name)] := by
  unfold getGithubOrgByName at h
  simp only at h
  cases hf : getFromGithub lib g token (getURL g.config "ORGS" ++ URLEncoded lib name) log with
  | panicked l2 => rw [hf] at h; simp at h
  | returned r2 l2 =>
    have hl := (getFromGithub_log lib g token _ log l2 r2 hf).1
    rw [hf] at h
    obtain ⟨resp, err⟩ := r2
    cases err with
    | some e =>
      simp only [Outcome.returned.injEq] at h
      rw [← h.2]; exact hl
    | none =>
      cases resp with
      | none => simp at h
      | some resp =>
        simp only [readAll] at h
        cases hr : resp.Body.readErr with
        | some e =>
          rw [hr] at h
          simp only [Outcome.returned.injEq] at h
          rw [← h.2]; exact hl
        | none =>
          rw [hr] at h
          simp only at h
          cases hj : lib.unmarshalAccount resp.Body.data with
          | error e =>
            rw [hj] at h
            simp only [Outcome.returned.injEq] at h
            rw [← h.2]; exact hl
          | ok a =>
            rw [hj] at h
            simp only [Outcome.returned.injEq] at h
            rw [← h.2]; exact hl

theorem orgsLoop_decoded (lib : Lib) :
    ∀ (pre : List (Response × List Account)) (acc : List Account) (rest : List Response),
      OrgPagesDecode lib pre →
      orgsLoop lib (pre.map (fun p => p.1) ++ rest) acc =
        orgsLoop lib rest (acc ++ (pre.map (fun p => p.2)).flatten) := by
  intro pre
  induction pre with
  | nil => intro acc rest _; simp
  | cons p pre ih =>
    intro acc rest h
    have hp := h p (by simp)
    have hrest : OrgPagesDecode lib pre := fun q hq => h q (by simp [hq])
    simp only [List.map_cons, List.cons_append, orgsLoop, readAll, hp.1, hp.2]
    refine (ih (acc ++ p.2) rest hrest).trans ?_
    simp

theorem orgsLoop_fails (lib : Lib) (bad : Response) (post : List Response)
    (acc : List Account) (e : GoError) (h : OrgPageFails lib bad e) :
    orgsLoop lib (bad :: post) acc = (acc, some e) := by
  rcases h with h | ⟨h1, h2⟩
  · simp [orgsLoop, readAll, h]
  · simp [orgsLoop, readAll, h1, h2]

theorem teamsLoop_decoded (lib : Lib) (g : GClient) :
    ∀ (pre : List (Response × List Team)) (acc : List Account) (rest : List Response),
      TeamPagesDecode lib pre →
      teamsLoop lib g (pre.map (fun p => p.1) ++ rest) acc =
        teamsLoop lib g rest (acc ++ (pre.map (fun p => teamAccounts lib g p.2)).flatten) := by
  intro pre
  induction pre with
  | nil => intro acc rest _; simp
  | cons p pre ih =>
    intro acc rest h
    have hp := h p (by simp)
    have hrest : TeamPagesDecode lib pre := fun q hq => h q (by simp [hq])
    simp only [List.map_cons, List.cons_append, teamsLoop, getTeamInfo, readAll, hp.1, hp.2]
    refine (ih (acc ++ teamAccounts lib g p.2) rest hrest).trans ?_
    simp

theorem teamsLoop_fails (lib : Lib) (g : GClient) (bad : Response) (post : List Response)
    (acc : List Account) (e : GoError) (h : TeamPageFails lib bad e) :
    teamsLoop lib g (bad :: post) acc = (acc, some e) := by
  rcases h with h | ⟨h1, h2⟩
  · simp [teamsLoop, getTeamInfo, readAll, h]
  · simp [teamsLoop, getTeamInfo, readAll, h1, h2]

theorem getFromGithub_fails (lib : Lib) (g : GClient) (token url : String) (log : Log)
    (e : GoError) (h : FetchFails lib g token log url e) :
    ∃ r, getFromGithub lib g token url log =
      .returned (r, some e) (log ++ [authorizedGet token url]) := by
  obtain ⟨⟨u, hurl⟩, h | h⟩ := h
  · obtain ⟨r, hd⟩ := h
    refine ⟨r, ?_⟩
    rw [getFromGithub_request lib g token url log u hurl, hd]
  · obtain ⟨resp, hd, hst, he⟩ := h
    refine ⟨some resp, ?_⟩
    rw [getFromGithub_request lib g token url log u hurl, hd, he]
    simp [hst]

theorem paginateLoop_failing_chain (lib : Lib) (g : GClient) (token bad : String)
    (e : GoError) :
    ∀ (pre : List (String × Response)) (acc : List Response) (log : Log) (fuel : Nat),
      FailingChain lib g token log pre bad e → pre.length + 1 ≤ fuel →
      startOf pre bad ≠ "" →
      paginateLoop lib g token fuel (startOf pre bad) acc log =
        some (.returned (acc ++ pre.map (fun p => p.2), some e)
          (log ++ pre.map (fun p => authorizedGet token p.1) ++ [authorizedGet token bad])) := by
  intro pre
  induction pre with
  | nil =>
    intro acc log fuel hchain hfuel hne
    cases fuel with
    | zero => simp at hfuel
    | succ fuel =>
      obtain ⟨r, hf⟩ := getFromGithub_fails lib g token bad log e hchain
      simp only [startOf] at hne
      unfold paginateLoop
      simp only [startOf, hne, if_false, hf]
      cases r <;> simp
  | cons p rest ih =>
    intro acc log fuel hchain hfuel hne
    obtain ⟨url, resp⟩ := p
    obtain ⟨⟨u, hurl⟩, hdo, hst, hlink, hrest⟩ := hchain
    simp only [startOf] at hne
    cases fuel with
    | zero => simp at hfuel
    | succ fuel =>
      have hfuel2 : rest.length + 1 ≤ fuel := by simpa using hfuel
      unfold paginateLoop
      simp only [startOf, hne, if_false]
      rw [getFromGithub_success lib g token url log u resp hurl hdo hst]
      simp only
      rw [nextGithubPage_of_hasNext lib resp (startOf rest bad) hlink.2,
        ih (acc ++ [resp]) (log ++ [authorizedGet token url]) fuel hrest hfuel2 hlink.1]
      simp

theorem paginateGithub_failing_chain (lib : Lib) (g : GClient) (token bad : String)
    (e : GoError) (pre : List (String × Response)) (log : Log) (fuel : Nat)
    (hchain : FailingChain lib g token log pre bad e) (hfuel : pre.length ≤ fuel) :
    paginateGithub lib g token (startOf pre bad) log fuel =
      some (.returned (pre.map (fun p => p.2), some e)
        (log ++ pre.map (fun p => authorizedGet token p.1) ++ [authorizedGet token bad])) := by
  cases pre with
  | nil =>
    obtain ⟨r, hf⟩ := getFromGithub_fails lib g token bad log e hchain
    unfold paginateGithub
    simp only [startOf, hf]
    cases r <;> simp
  | cons p rest =>
    obtain ⟨url, resp⟩ := p
    obtain ⟨⟨u, hurl⟩, hdo, hst, hlink, hrest⟩ := hchain
    have hfuel2 : rest.length + 1 ≤ fuel := by simpa using hfuel
    unfold paginateGithub
    simp only [startOf]
    rw [getFromGithub_success lib g token url log u resp hurl hdo hst]
    simp only
    rw [nextGithubPage_of_hasNext lib resp (startOf rest bad) hlink.2,
      paginateLoop_failing_chain lib g token bad e rest [resp]
        (log ++ [authorizedGet token url]) fuel hrest hfuel2 hlink.1]
    simp

theorem paginateGithub_of_chain (lib : Lib) (g : GClient) (token : String) (log : Log)
    (first : String × Response) (rest : List (String × Response)) (fuel : Nat)
    (hchain : PageChain lib g token log (first :: rest)) (hfuel : rest.length ≤ fuel) :
    paginateGithub lib g token first.1 log fuel =
      some (.returned ((first :: rest).map (fun p => p.2), none)
        (log ++ (first :: rest).map (fun p => authorizedGet token p.1))) := by
  obtain ⟨url, resp⟩ := first
  obtain ⟨⟨u, hurl⟩, hdo, hst, hlink, hrest⟩ := hchain
  unfold paginateGithub
  simp only
  rw [getFromGithub_success lib g token url log u resp hurl hdo hst]
  simp only
  have hnext : nextGithubPage lib resp = nextOf rest := by
    cases rest with
    | nil => exact nextGithubPage_of_noNext lib resp hlink
    | cons q rest2 => exact nextGithubPage_of_hasNext lib resp q.1 hlink.2
  have hhead : ∀ p ∈ rest.head?, p.1 ≠ "" := by
    cases rest with
    | nil => simp
    | cons q rest2 =>
      intro p hp
      simp only [List.head?_cons, Option.mem_def, Option.some.injEq] at hp
      subst hp
      exact hlink.1
  rw [hnext, paginateLoop_chain lib g token rest [resp] (log ++ [authorizedGet token url]) fuel
    hrest hfuel hhead]
  simp


/-! ### The claims -/


/-- C1: for every configuration, `getURL` sends each of the eight documented
endpoint names to its base followed by the fixed suffix. -/
theorem getURL_documented_endpoints (config : GithubConfig) :
    getURL config "TOKEN" = specSiteBase config ++ "/login/oauth/access_token" ∧
    getURL config "USER_INFO" = specApiBase config ++ "/user" ∧
    getURL config "ORG_INFO" = specApiBase config ++ "/user/orgs?per_page=1" ∧
    getURL config "TEAMS" = specApiBase config ++ "/user/teams?per_page=100" ∧
    getURL config "TEAM" = specApiBase config ++ "/teams/" ∧
    getURL config "USERS" = specApiBase config ++ "/users/" ∧
    getURL config "ORGS" = specApiBase config ++ "/orgs/" ∧
    getURL config "TEAM_PROFILE" = specSiteBase config ++ "/orgs/%s/teams/%s" := by
  by_cases h : config.Hostname = "" <;>
    simp [getURL, specApiBase, specSiteBase, h, gheAPI, githubAPI, githubDefaultHostName]

/-- C2 (as stated, refuted): with an empty hostname the endpoint name
`USER_PICTURE` resolves to the avatar host, which begins with neither public
origin. -/
theorem getURL_user_picture_not_public_origin :
    getURL ⟨"id", "secret", "", "https://"⟩ "USER_PICTURE"
        = "https://avatars.githubusercontent.com/u/USER_PICTURE?v=3&s=72" ∧
      ¬ BeginsWith "https://api.github.com" (getURL ⟨"id", "secret", "", "https://"⟩ "USER_PICTURE") ∧
      ¬ BeginsWith "https://github.com" (getURL ⟨"id", "secret", "", "https://"⟩ "USER_PICTURE") := by
  refine ⟨by decide, ?_, ?_⟩
  · rintro ⟨rest, h⟩
    have h2 := congrArg String.data h
    simp [getURL, String.data_append] at h2
  · rintro ⟨rest, h⟩
    have h2 := congrArg String.data h
    simp [getURL, String.data_append] at h2

/-- C2 (amended): with an empty hostname, every endpoint name other than
`USER_PICTURE` resolves to a URL that begins with one of the two public
origins. -/
theorem getURL_public_origin (config : GithubConfig) (endpoint : String)
    (hhost : config.Hostname = "") (hname : endpoint ≠ "USER_PICTURE") :
    BeginsWith "https://api.github.com" (getURL config endpoint) ∨
      BeginsWith "https://github.com" (getURL config endpoint) := by
  by_cases h1 : endpoint = "API"
  · subst h1; exact Or.inl ⟨"", by simp [getURL, hhost, githubAPI]⟩
  by_cases h2 : endpoint = "TOKEN"
  · subst h2
    exact Or.inr ⟨"/login/oauth/access_token", by simp [getURL, hhost, githubDefaultHostName]⟩
  by_cases h3 : endpoint = "USERS"
  · subst h3; exact Or.inl ⟨"/users/", by simp [getURL, hhost, githubAPI]⟩
  by_cases h4 : endpoint = "ORGS"
  · subst h4; exact Or.inl ⟨"/orgs/", by simp [getURL, hhost, githubAPI]⟩
  by_cases h5 : endpoint = "USER_INFO"
  · subst h5; exact Or.inl ⟨"/user", by simp [getURL, hhost, githubAPI]⟩
  by_cases h6 : endpoint = "ORG_INFO"
  · subst h6; exact Or.inl ⟨"/user/orgs?per_page=1", by simp [getURL, hhost, githubAPI]⟩
  by_cases h7 : endpoint = "USER_SEARCH"
  · subst h7; exact Or.inl ⟨"/search/users?q=", by simp [getURL, hhost, githubAPI]⟩
  by_cases h8 : endpoint = "TEAM"
  · subst h8; exact Or.inl ⟨"/teams/", by simp [getURL, hhost, githubAPI]⟩
  by_cases h9 : endpoint = "TEAMS"
  · subst h9; exact Or.inl ⟨"/user/teams?per_page=100", by simp [getURL, hhost, githubAPI]⟩
  by_cases h10 : endpoint = "TEAM_PROFILE"
  · subst h10
    exact Or.inr ⟨"/orgs/%s/teams/%s", by simp [getURL, hhost, githubDefaultHostName]⟩
  · exact Or.inl ⟨"", by
      simp [getURL, hhost, githubAPI, h1, h2, h3, h4, h5, h6, hname, h7, h8, h9, h10]⟩

theorem getURL_public_origin_witness :
    BeginsWith "https://api.github.com" (getURL ⟨"id", "secret", "", "https://"⟩ "NO_SUCH_NAME") ∨
      BeginsWith "https://github.com" (getURL ⟨"id", "secret", "", "https://"⟩ "NO_SUCH_NAME") :=
  getURL_public_origin ⟨"id", "secret", "", "https://"⟩ "NO_SUCH_NAME" rfl (by decide)



/-- C3: when the HTTP client answers the request with a response and no
error, `getFromGithub` returns a nil error exactly for the status codes 200 and
201, and for every other status code an error whose message carries the status
code and all the bytes the response body delivers. -/
theorem getFromGithub_status (lib : Lib) (g : GClient) (token url : String) (log : Log)
    (u : URL) (resp : Response) (hurl : lib.urlParse url = .ok u)
    (hdo : g.httpClient log (authorizedGet token url) = .response resp) :
    ∃ err : Option GoError,
      getFromGithub lib g token url log =
        .returned (some resp, err) (log ++ [authorizedGet token url]) ∧
      (err = none ↔ (resp.StatusCode = 200 ∨ resp.StatusCode = 201)) ∧
      (¬ (resp.StatusCode = 200 ∨ resp.StatusCode = 201) →
        err = some ⟨"Request failed, got status code: " ++ toString resp.StatusCode
          ++ ". Response: " ++ resp.Body.data⟩) := by
  rw [getFromGithub_request lib g token url log u hurl, hdo]
  by_cases hst : resp.StatusCode = 200 ∨ resp.StatusCode = 201
  · exact ⟨none, by simp [hst], by simp [hst], fun h => absurd hst h⟩
  · exact ⟨some (statusError resp), by simp [hst], by simp [hst], fun _ => rfl⟩

theorem getFromGithub_status_witness :
    ∃ err : Option GoError,
      getFromGithub sampleLib sampleClient "tok" "https://api.github.com/orgs/nobody" [] =
        .returned (some notFound, err)
          ([] ++ [authorizedGet "tok" "https://api.github.com/orgs/nobody"]) ∧
      (err = none ↔ (notFound.StatusCode = 200 ∨ notFound.StatusCode = 201)) ∧
      (¬ (notFound.StatusCode = 200 ∨ notFound.StatusCode = 201) →
        err = some ⟨"Request failed, got status code: " ++ toString notFound.StatusCode
          ++ ". Response: " ++ notFound.Body.data⟩) :=
  getFromGithub_status sampleLib sampleClient "tok" "https://api.github.com/orgs/nobody" []
    ⟨"https://api.github.com/orgs/nobody"⟩ notFound rfl rfl

/-- C4: for a chain of N = `rest.length + 1` pages in which every fetch
succeeds, every page but the last links to the following page and the last
page has no next link, `paginateGithub` (given at least N - 1 loop iterations)
returns exactly the N responses in link order with a nil error, having issued
exactly the N fetches in that order, the first one to the start URL. -/
theorem paginateGithub_follows_chain (lib : Lib) (g : GClient) (token : String) (log : Log)
    (first : String × Response) (rest : List (String × Response)) (fuel : Nat)
    (hchain : PageChain lib g token log (first :: rest)) (hfuel : rest.length ≤ fuel) :
    paginateGithub lib g token first.1 log fuel =
      some (.returned ((first :: rest).map (fun p => p.2), none)
        (log ++ (first :: rest).map (fun p => authorizedGet token p.1))) := by
  obtain ⟨url, resp⟩ := first
  obtain ⟨⟨u, hurl⟩, hdo, hst, hlink, hrest⟩ := hchain
  unfold paginateGithub
  simp only
  rw [getFromGithub_success lib g token url log u resp hurl hdo hst]
  simp only
  have hnext : nextGithubPage lib resp = nextOf rest := by
    cases rest with
    | nil => exact nextGithubPage_of_noNext lib resp hlink
    | cons q rest2 => exact nextGithubPage_of_hasNext lib resp q.1 hlink.2
  have hhead : ∀ p ∈ rest.head?, p.1 ≠ "" := by
    cases rest with
    | nil => simp
    | cons q rest2 =>
      intro p hp
      simp only [List.head?_cons, Option.mem_def, Option.some.injEq] at hp
      subst hp
      exact hlink.1
  rw [hnext, paginateLoop_chain lib g token rest [resp] (log ++ [authorizedGet token url]) fuel
    hrest hfuel hhead]
  simp

theorem paginateGithub_follows_chain_witness :
    paginateGithub sampleLib sampleClient "tok" orgsPage1URL [] 1 =
      some (.returned ([orgsPage1, brokenPage], none)
        [authorizedGet "tok" orgsPage1URL, authorizedGet "tok" orgsPage2URL]) :=
  paginateGithub_follows_chain sampleLib sampleClient "tok" []
    (orgsPage1URL, orgsPage1) [(orgsPage2URL, brokenPage)] 1
    ⟨⟨⟨orgsPage1URL⟩, rfl⟩, rfl, Or.inl rfl,
      ⟨by decide, by decide, ⟨⟨orgsPage2URL, "next"⟩, by decide, rfl, rfl⟩, by decide⟩,
      ⟨⟨orgsPage2URL⟩, rfl⟩, rfl, Or.inl rfl, Or.inl rfl, trivial⟩
    (by decide)

theorem getAccessToken_decoded (lib : Lib) (g : GClient) (code : String) (log : Log)
    (u : URL) (resp : Response) (respMap : JMap)
    (hurl : lib.urlParse (getURL g.config "TOKEN") = .ok u)
    (hdo : g.httpClient log (tokenRequest lib g code) = .response resp)
    (hst : resp.StatusCode = 200 ∨ resp.StatusCode = 201)
    (hread : resp.Body.readErr = none)
    (hjson : lib.unmarshalMap resp.Body.data = .ok respMap) :
    getAccessToken lib g code log =
      if (respMap.index "error").notNil then
        .returned ("", some ⟨"Received Error from github " ++ lib.fmtV (respMap.index "error")
          ++ ", description from github " ++ lib.fmtV (respMap.index "error_description")⟩)
          (log ++ [tokenRequest lib g code])
      else
        match respMap.index "access_token" with
        | JValue.string acessToken =>
          .returned (acessToken, none) (log ++ [tokenRequest lib g code])
        | _ => .returned ("", some ⟨"Received Error reading accessToken from response "
            ++ lib.fmtV (JValue.object respMap)⟩) (log ++ [tokenRequest lib g code]) := by
  have hpost : postToGithub lib g (getURL g.config "TOKEN")
      [("client_id", g.config.ClientID), ("client_secret", g.config.ClientSecret),
        ("code", code)] log =
      .returned (some resp, none) (log ++ [tokenRequest lib g code]) := by
    simp only [postToGithub, newRequest, hurl, Request.addHeader, List.nil_append,
      List.cons_append]
    simp only [tokenRequest] at hdo
    rw [hdo]
    rcases hst with h | h
    · simp [h, tokenRequest]
    · simp [h, tokenRequest]
  unfold getAccessToken
  simp only [hpost, readAll, hread, hjson]

/-- C5 (as stated, refuted): the token endpoint answers the code `odd` with
status 200 and a JSON object that carries an `error` field (whose value is
null) next to an `access_token`; `getAccessToken` returns that token with a nil
error. -/
theorem getAccessToken_null_error_succeeds :
    sampleClient.httpClient [] (tokenRequest sampleLib sampleClient "odd") =
        .response ⟨200, noHeader, ⟨nullErrorBody, none⟩⟩ ∧
      sampleLib.unmarshalMap nullErrorBody =
        .ok [("error", JValue.null), ("access_token", JValue.string "tok")] ∧
      (List.lookup "error" [("error", JValue.null), ("access_token", JValue.string "tok")]).isSome
        = true ∧
      getAccessToken sampleLib sampleClient "odd" [] =
        .returned ("tok", none) [tokenRequest sampleLib sampleClient "odd"] :=
  ⟨rfl, rfl, rfl, rfl⟩

/-- C5 (amended): for a token-endpoint response with status 200 whose body is a
JSON object that carries an `error` field with a value other than null,
`getAccessToken` returns the empty token and an error reporting the `error` and
`error_description` values, whether or not the object carries an
`access_token`. -/
theorem getAccessToken_error_field (lib : Lib) (g : GClient) (code : String) (log : Log)
    (u : URL) (resp : Response) (respMap : JMap) (v : JValue)
    (hurl : lib.urlParse (getURL g.config "TOKEN") = .ok u)
    (hdo : g.httpClient log (tokenRequest lib g code) = .response resp)
    (hst : resp.StatusCode = 200)
    (hread : resp.Body.readErr = none)
    (hjson : lib.unmarshalMap resp.Body.data = .ok respMap)
    (herr : respMap.lookup "error" = some v) (hv : v ≠ JValue.null) :
    getAccessToken lib g code log =
      .returned ("", some ⟨"Received Error from github " ++ lib.fmtV v
        ++ ", description from github " ++ lib.fmtV (respMap.index "error_description")⟩)
        (log ++ [tokenRequest lib g code]) := by
  rw [getAccessToken_decoded lib g code log u resp respMap hurl hdo (Or.inl hst) hread hjson]
  have hidx : respMap.index "error" = v := by
    unfold JMap.index
    rw [herr]
  have hnn : v.notNil = true := by
    cases v with
    | null => exact absurd rfl hv
    | _ => rfl
  simp [hidx, hnn]

theorem getAccessToken_error_field_witness :
    getAccessToken sampleLib sampleClient "expired" [] =
      .returned ("", some ⟨"Received Error from github "
        ++ sampleLib.fmtV (JValue.string "bad_verification_code")
        ++ ", description from github "
        ++ sampleLib.fmtV (JMap.index [("error", JValue.string "bad_verification_code"),
            ("error_description", JValue.string "expired")] "error_description")⟩)
        ([] ++ [tokenRequest sampleLib sampleClient "expired"]) :=
  getAccessToken_error_field sampleLib sampleClient "expired" []
    ⟨"https://github.com/login/oauth/access_token"⟩ ⟨200, noHeader, ⟨rejectedBody, none⟩⟩
    [("error", JValue.string "bad_verification_code"),
      ("error_description", JValue.string "expired")]
    (JValue.string "bad_verification_code") rfl rfl rfl rfl rfl rfl
    (fun h => JValue.noConfusion h)

/-- C6: for a token-endpoint response with status 200 or 201 whose body is a
JSON object without an error report (no `error` field, or a null one),
`getAccessToken` returns the value of `access_token` with a nil error when the
field holds a string, and the empty token with a non-nil error when the field
is absent or holds anything else. -/
theorem getAccessToken_access_token (lib : Lib) (g : GClient) (code : String) (log : Log)
    (u : URL) (resp : Response) (respMap : JMap)
    (hurl : lib.urlParse (getURL g.config "TOKEN") = .ok u)
    (hdo : g.httpClient log (tokenRequest lib g code) = .response resp)
    (hst : resp.StatusCode = 200 ∨ resp.StatusCode = 201)
    (hread : resp.Body.readErr = none)
    (hjson : lib.unmarshalMap resp.Body.data = .ok respMap)
    (hnoerr : ∀ v, respMap.lookup "error" = some v → v = JValue.null) :
    (∀ s, respMap.lookup "access_token" = some (JValue.string s) →
      getAccessToken lib g code log =
        .returned (s, none) (log ++ [tokenRequest lib g code])) ∧
    (respMap.lookup "access_token" = none →
      getAccessToken lib g code log =
        .returned ("", some ⟨"Received Error reading accessToken from response "
          ++ lib.fmtV (JValue.object respMap)⟩) (log ++ [tokenRequest lib g code])) ∧
    (∀ w, respMap.lookup "access_token" = some w → (∀ s, w ≠ JValue.string s) →
      getAccessToken lib g code log =
        .returned ("", some ⟨"Received Error reading accessToken from response "
          ++ lib.fmtV (JValue.object respMap)⟩) (log ++ [tokenRequest lib g code])) := by
  rw [getAccessToken_decoded lib g code log u resp respMap hurl hdo hst hread hjson]
  have hnil : (respMap.index "error").notNil = false := by
    unfold JMap.index
    cases hl : respMap.lookup "error" with
    | none => rfl
    | some v => rw [hnoerr v hl]; rfl
  simp only [hnil, Bool.false_eq_true, if_false]
  refine ⟨?_, ?_, ?_⟩
  · intro s hs
    simp [JMap.index, hs]
  · intro hs
    simp [JMap.index, hs]
  · intro w hw hns
    cases w with
    | string s => exact absurd rfl (hns s)
    | _ => simp [JMap.index, hw]

theorem getAccessToken_access_token_witness :
    getAccessToken sampleLib sampleClient "good" [] =
      .returned ("tok", none) ([] ++ [tokenRequest sampleLib sampleClient "good"]) :=
  (getAccessToken_access_token sampleLib sampleClient "good" []
    ⟨"https://github.com/login/oauth/access_token"⟩ ⟨200, noHeader, ⟨tokenBody, none⟩⟩
    [("access_token", JValue.string "tok")] rfl rfl (Or.inl rfl) rfl rfl
    (fun v h => by simp [List.lookup] at h)).1 "tok" rfl

theorem getGithubUserByName_fallback (lib : Lib) (g : GClient) (name token : String)
    (log l1 : Log) (a0 : Account) (e0 : GoError)
    (hprobe : getGithubOrgByName lib g name token log = .returned (a0, some e0) l1) :
    getGithubUserByName lib g name token log =
      match getFromGithub lib g token (getURL g.config "USERS" ++ URLEncoded lib name) l1 with
      | .panicked l => .panicked l
      | .returned (_, some err) l => .returned (Account.zero, some err) l
      | .returned (none, none) l => .panicked l
      | .returned (some resp, none) l =>
        match readAll resp.Body with
        | (_, some err) => .returned (Account.zero, some err) l
        | (b, none) =>
          match lib.unmarshalAccount b with
          | .error err => .returned (Account.zero, some err) l
          | .ok githubAcct => .returned (githubAcct, none) l := by
  unfold getGithubUserByName
  rw [hprobe]

/-- C7: `getGithubUserByName` issues the ORGS lookup first (whenever it returns,
the request log continues with the GET to the ORGS URL of the name), and if
`getGithubOrgByName` returns no error it issues no further request (the log
holds the ORGS request only) and returns the empty account with a non-nil
error. -/
theorem getGithubUserByName_org_first (lib : Lib) (g : GClient) (name token : String)
    (log : Log) :
    (∀ r l, getGithubUserByName lib g name token log = .returned r l →
      ∃ tail, l = log ++
        authorizedGet token (getURL g.config "ORGS" ++ URLEncoded lib name) :: tail) ∧
    (∀ acct l, getGithubOrgByName lib g name token log = .returned (acct, none) l →
      l = log ++ [authorizedGet token (getURL g.config "ORGS" ++ URLEncoded lib name)] ∧
      getGithubUserByName lib g name token log =
        .returned (Account.zero,
          some ⟨"There is a org by this name, not looking fo the user entity by name "
            ++ name⟩) l) := by
  constructor
  · intro r l h
    cases hp : getGithubOrgByName lib g name token log with
    | panicked l2 =>
      unfold getGithubUserByName at h
      rw [hp] at h
      simp at h
    | returned r1 l1 =>
      have hl1 := getGithubOrgByName_log lib g name token log l1 r1 hp
      obtain ⟨a0, err⟩ := r1
      cases err with
      | none =>
        unfold getGithubUserByName at h
        rw [hp] at h
        simp only [Outcome.returned.injEq] at h
        exact ⟨[], by rw [← h.2, hl1]⟩
      | some e0 =>
        rw [getGithubUserByName_fallback lib g name token log l1 a0 e0 hp] at h
        cases hf : getFromGithub lib g token
            (getURL g.config "USERS" ++ URLEncoded lib name) l1 with
        | panicked l2 => rw [hf] at h; simp at h
        | returned r2 l2 =>
          have hl2 := (getFromGithub_log lib g token _ l1 l2 r2 hf).1
          refine ⟨[authorizedGet token (getURL g.config "USERS" ++ URLEncoded lib name)], ?_⟩
          have hl : l = l2 := by
            rw [hf] at h
            obtain ⟨resp, err⟩ := r2
            cases err with
            | some e =>
              simp only [Outcome.returned.injEq] at h
              exact h.2.symm
            | none =>
              cases resp with
              | none => simp at h
              | some resp =>
                simp only [readAll] at h
                cases hr : resp.Body.readErr with
                | some e =>
                  rw [hr] at h
                  simp only [Outcome.returned.injEq] at h
                  exact h.2.symm
                | none =>
                  rw [hr] at h
                  simp only at h
                  cases hj : lib.unmarshalAccount resp.Body.data with
                  | error e =>
                    rw [hj] at h
                    simp only [Outcome.returned.injEq] at h
                    exact h.2.symm
                  | ok a =>
                    rw [hj] at h
                    simp only [Outcome.returned.injEq] at h
                    exact h.2.symm
          rw [hl, hl2, hl1]
          simp
  · intro acct l hp
    refine ⟨getGithubOrgByName_log lib g name token log l (acct, none) hp, ?_⟩
    unfold getGithubUserByName
    rw [hp]

theorem getGithubUserByName_org_first_witness :
    [authorizedGet "tok" "https://api.github.com/orgs/acme"] =
        [] ++ [authorizedGet "tok" (getURL sampleClient.config "ORGS"
          ++ URLEncoded sampleLib "acme")] ∧
      getGithubUserByName sampleLib sampleClient "acme" "tok" [] =
        .returned (Account.zero,
          some ⟨"There is a org by this name, not looking fo the user entity by name "
            ++ "acme"⟩) [authorizedGet "tok" "https://api.github.com/orgs/acme"] :=
  (getGithubUserByName_org_first sampleLib sampleClient "acme" "tok" []).2 acme
    [authorizedGet "tok" "https://api.github.com/orgs/acme"] rfl

/-- C8: if the ORGS probe returns an error, `getGithubUserByName` issues exactly
one further request, the GET to `getURL("USERS") ++ URLEncoded(name)`, and
returns the outcome of that lookup: the decoded account with a nil error when
the fetch and the decoding succeed, and otherwise the empty account with the
error of the failing step (network, status, read or decode). -/
theorem getGithubUserByName_user_lookup (lib : Lib) (g : GClient) (name token : String)
    (log l1 : Log) (a0 : Account) (e0 : GoError) (u : URL)
    (hprobe : getGithubOrgByName lib g name token log = .returned (a0, some e0) l1)
    (hurl : lib.urlParse (getURL g.config "USERS" ++ URLEncoded lib name) = .ok u) :
    (∀ r e, g.httpClient l1
        (authorizedGet token (getURL g.config "USERS" ++ URLEncoded lib name)) = .failure r e →
      getGithubUserByName lib g name token log = .returned (Account.zero, some e)
        (l1 ++ [authorizedGet token (getURL g.config "USERS" ++ URLEncoded lib name)])) ∧
    (∀ resp, g.httpClient l1
        (authorizedGet token (getURL g.config "USERS" ++ URLEncoded lib name)) = .response resp →
      ¬ (resp.StatusCode = 200 ∨ resp.StatusCode = 201) →
      getGithubUserByName lib g name token log =
        .returned (Account.zero, some (statusError resp))
          (l1 ++ [authorizedGet token (getURL g.config "USERS" ++ URLEncoded lib name)])) ∧
    (∀ resp e, g.httpClient l1
        (authorizedGet token (getURL g.config "USERS" ++ URLEncoded lib name)) = .response resp →
      (resp.StatusCode = 200 ∨ resp.StatusCode = 201) → resp.Body.readErr = some e →
      getGithubUserByName lib g name token log = .returned (Account.zero, some e)
        (l1 ++ [authorizedGet token (getURL g.config "USERS" ++ URLEncoded lib name)])) ∧
    (∀ resp e, g.httpClient l1
        (authorizedGet token (getURL g.config "USERS" ++ URLEncoded lib name)) = .response resp →
      (resp.StatusCode = 200 ∨ resp.StatusCode = 201) → resp.Body.readErr = none →
      lib.unmarshalAccount resp.Body.data = .error e →
      getGithubUserByName lib g name token log = .returned (Account.zero, some e)
        (l1 ++ [authorizedGet token (getURL g.config "USERS" ++ URLEncoded lib name)])) ∧
    (∀ resp acct, g.httpClient l1
        (authorizedGet token (getURL g.config "USERS" ++ URLEncoded lib name)) = .response resp →
      (resp.StatusCode = 200 ∨ resp.StatusCode = 201) → resp.Body.readErr = none →
      lib.unmarshalAccount resp.Body.data = .ok acct →
      getGithubUserByName lib g name token log = .returned (acct, none)
        (l1 ++ [authorizedGet token (getURL g.config "USERS" ++ URLEncoded lib name)])) := by
  rw [getGithubUserByName_fallback lib g name token log l1 a0 e0 hprobe,
    getFromGithub_request lib g token _ l1 u hurl]
  refine ⟨?_, ?_, ?_, ?_, ?_⟩
  · intro r e hd
    rw [hd]
    cases r <;> rfl
  · intro resp hd hst
    rw [hd]
    simp [hst]
  · intro resp e hd hst hr
    rw [hd]
    simp [hst, readAll, hr]
  · intro resp e hd hst hr hj
    rw [hd]
    simp [hst, readAll, hr, hj]
  · intro resp acct hd hst hr hj
    rw [hd]
    simp [hst, readAll, hr, hj]

theorem getGithubUserByName_user_lookup_witness :
    getGithubUserByName sampleLib sampleClient "alice" "tok" [] =
      .returned (alice, none)
        ([authorizedGet "tok" "https://api.github.com/orgs/alice"] ++
          [authorizedGet "tok" (getURL sampleClient.config "USERS"
            ++ URLEncoded sampleLib "alice")]) :=
  (getGithubUserByName_user_lookup sampleLib sampleClient "alice" "tok" []
    [authorizedGet "tok" "https://api.github.com/orgs/alice"] Account.zero
    (statusError notFound) ⟨"https://api.github.com/users/alice"⟩ rfl rfl).2.2.2.2
    ⟨200, noHeader, ⟨aliceBody, none⟩⟩ alice rfl (Or.inl rfl) rfl rfl

/-- C9 (as stated, refuted): the second page of organizations fails to decode,
and `getGithubOrgs` returns the error together with the account decoded from
the first page. -/
theorem getGithubOrgs_keeps_earlier_pages :
    paginateGithub sampleLib sampleClient "tok" (getURL sampleClient.config "ORG_INFO") [] 1 =
        some (.returned ([orgsPage1, brokenPage], none)
          [authorizedGet "tok" orgsPage1URL, authorizedGet "tok" orgsPage2URL]) ∧
      OrgPageFails sampleLib brokenPage decodeError ∧
      getGithubOrgs sampleLib sampleClient "tok" [] 1 =
        some (.returned ([acme], some decodeError)
          [authorizedGet "tok" orgsPage1URL, authorizedGet "tok" orgsPage2URL]) ∧
      [acme] ≠ ([] : List Account) :=
  ⟨rfl, Or.inr ⟨rfl, rfl⟩, rfl, by decide⟩

/-- C9 (amended): `getGithubOrgs` and `getGithubTeams` stop at the first
failure with a non-nil error.  If the fetch of a page fails (the start page,
or a page that the pages served before it link to), they return the error of
that fetch and an empty list.  If every page is fetched and reading or
decoding one of them fails, they return that error and exactly the accounts of
the pages decoded before it.  In both cases enough loop iterations (one per
page after the first) give the result. -/
theorem getGithubOrgs_getGithubTeams_abort (lib : Lib) (g : GClient) (token : String)
    (log : Log) (fuel : Nat) :
    (∀ (pre : List (String × Response)) (bad : String) (e : GoError),
      FailingChain lib g token log pre bad e →
      startOf pre bad = getURL g.config "ORG_INFO" → pre.length ≤ fuel →
      getGithubOrgs lib g token log fuel =
        some (.returned ([], some e)
          (log ++ pre.map (fun p => authorizedGet token p.1) ++ [authorizedGet token bad]))) ∧
    (∀ (first : String × Response) (rest : List (String × Response))
      (pre : List (Response × List Account)) (bad : Response) (post : List Response)
      (e : GoError),
      PageChain lib g token log (first :: rest) →
      first.1 = getURL g.config "ORG_INFO" → rest.length ≤ fuel →
      (first :: rest).map (fun p => p.2) = pre.map (fun p => p.1) ++ bad :: post →
      OrgPagesDecode lib pre → OrgPageFails lib bad e →
      getGithubOrgs lib g token log fuel =
        some (.returned ((pre.map (fun p => p.2)).flatten, some e)
          (log ++ (first :: rest).map (fun p => authorizedGet token p.1)))) ∧
    (∀ (pre : List (String × Response)) (bad : String) (e : GoError),
      FailingChain lib g token log pre bad e →
      startOf pre bad = getURL g.config "TEAMS" → pre.length ≤ fuel →
      getGithubTeams lib g token log fuel =
        some (.returned ([], some e)
          (log ++ pre.map (fun p => authorizedGet token p.1) ++ [authorizedGet token bad]))) ∧
    (∀ (first : String × Response) (rest : List (String × Response))
      (pre : List (Response × List Team)) (bad : Response) (post : List Response)
      (e : GoError),
      PageChain lib g token log (first :: rest) →
      first.1 = getURL g.config "TEAMS" → rest.length ≤ fuel →
      (first :: rest).map (fun p => p.2) = pre.map (fun p => p.1) ++ bad :: post →
      TeamPagesDecode lib pre → TeamPageFails lib bad e →
      getGithubTeams lib g token log fuel =
        some (.returned ((pre.map (fun p => teamAccounts lib g p.2)).flatten, some e)
          (log ++ (first :: rest).map (fun p => authorizedGet token p.1)))) := by
  refine ⟨?_, ?_, ?_, ?_⟩
  · intro pre bad e hchain hstart hfuel
    have hp := paginateGithub_failing_chain lib g token bad e pre log fuel hchain hfuel
    rw [hstart] at hp
    unfold getGithubOrgs
    simp only [hp]
  · intro first rest pre bad post e hchain hstart hfuel hsplit hpre hbad
    have hp := paginateGithub_of_chain lib g token log first rest fuel hchain hfuel
    rw [hstart, hsplit] at hp
    unfold getGithubOrgs
    simp only [hp]
    rw [orgsLoop_decoded lib pre [] (bad :: post) hpre, orgsLoop_fails lib bad post _ e hbad]
    simp
  · intro pre bad e hchain hstart hfuel
    have hp := paginateGithub_failing_chain lib g token bad e pre log fuel hchain hfuel
    rw [hstart] at hp
    unfold getGithubTeams
    simp only [hp]
  · intro first rest pre bad post e hchain hstart hfuel hsplit hpre hbad
    have hp := paginateGithub_of_chain lib g token log first rest fuel hchain hfuel
    rw [hstart, hsplit] at hp
    unfold getGithubTeams
    simp only [hp]
    rw [teamsLoop_decoded lib g pre [] (bad :: post) hpre, teamsLoop_fails lib g bad post _ e hbad]
    simp

theorem getGithubOrgs_getGithubTeams_abort_witness :
    getGithubOrgs sampleLib flakyClient "tok" [] 1 =
        some (.returned ([], some connectionRefused)
          [authorizedGet "tok" orgsPage1URL, authorizedGet "tok" orgsPage2URL]) ∧
      getGithubOrgs sampleLib sampleClient "tok" [] 1 =
        some (.returned ([acme], some decodeError)
          [authorizedGet "tok" orgsPage1URL, authorizedGet "tok" orgsPage2URL]) ∧
      getGithubTeams sampleLib flakyClient "tok" [] 1 =
        some (.returned ([], some connectionRefused)
          [authorizedGet "tok" teamsPage1URL, authorizedGet "tok" teamsPage2URL]) ∧
      getGithubTeams sampleLib sampleClient "tok" [] 1 =
        some (.returned ([⟨7, "core", "core", "", "", "team"⟩], some decodeError)
          [authorizedGet "tok" teamsPage1URL, authorizedGet "tok" teamsPage2URL]) :=
  ⟨(getGithubOrgs_getGithubTeams_abort sampleLib flakyClient "tok" [] 1).1
      [(orgsPage1URL, orgsPage1)] orgsPage2URL connectionRefused
      ⟨⟨⟨orgsPage1URL⟩, rfl⟩, rfl, Or.inl rfl,
        ⟨by decide, by decide, ⟨⟨orgsPage2URL, "next"⟩, by decide, rfl, rfl⟩, by decide⟩,
        ⟨⟨orgsPage2URL⟩, rfl⟩, Or.inl ⟨none, rfl⟩⟩
      rfl (by decide),
    (getGithubOrgs_getGithubTeams_abort sampleLib sampleClient "tok" [] 1).2.1
      (orgsPage1URL, orgsPage1) [(orgsPage2URL, brokenPage)]
      [(orgsPage1, [acme])] brokenPage [] decodeError
      ⟨⟨⟨orgsPage1URL⟩, rfl⟩, rfl, Or.inl rfl,
        ⟨by decide, by decide, ⟨⟨orgsPage2URL, "next"⟩, by decide, rfl, rfl⟩, by decide⟩,
        ⟨⟨orgsPage2URL⟩, rfl⟩, rfl, Or.inl rfl, Or.inl rfl, trivial⟩
      rfl (by decide) rfl
      (by intro p hp; simp only [List.mem_singleton] at hp; subst hp; exact ⟨rfl, rfl⟩)
      (Or.inr ⟨rfl, rfl⟩),
    (getGithubOrgs_getGithubTeams_abort sampleLib flakyClient "tok" [] 1).2.2.1
      [(teamsPage1URL, teamsPage1)] teamsPage2URL connectionRefused
      ⟨⟨⟨teamsPage1URL⟩, rfl⟩, rfl, Or.inl rfl,
        ⟨by decide, by decide, ⟨⟨teamsPage2URL, "next"⟩, by decide, rfl, rfl⟩, by decide⟩,
        ⟨⟨teamsPage2URL⟩, rfl⟩, Or.inl ⟨none, rfl⟩⟩
      rfl (by decide),
    (getGithubOrgs_getGithubTeams_abort sampleLib sampleClient "tok" [] 1).2.2.2
      (teamsPage1URL, teamsPage1) [(teamsPage2URL, brokenPage)]
      [(teamsPage1, [coreTeam])] brokenPage [] decodeError
      ⟨⟨⟨teamsPage1URL⟩, rfl⟩, rfl, Or.inl rfl,
        ⟨by decide, by decide, ⟨⟨teamsPage2URL, "next"⟩, by decide, rfl, rfl⟩, by decide⟩,
        ⟨⟨teamsPage2URL⟩, rfl⟩, rfl, Or.inl rfl, Or.inl rfl, trivial⟩
      rfl (by decide) rfl
      (by intro p hp; simp only [List.mem_singleton] at hp; subst hp; exact ⟨rfl, rfl⟩)
      (Or.inr ⟨rfl, rfl⟩)⟩

/-- C10 (the code at the failing input): `URLEncoded` leaves the name `a/b` as
it is, so `getGithubOrgByName` requests `/orgs/a/b`, two path segments below
`/orgs/`. -/
theorem URLEncoded_keeps_slash :
    URLEncoded sampleLib "a/b" = "a/b" ∧
      getGithubOrgByName sampleLib sampleClient "a/b" "tok" [] =
        .returned (Account.zero, some (statusError notFound))
          [authorizedGet "tok" "https://api.github.com/orgs/a/b"] :=
  ⟨rfl, rfl⟩

end Github
